import Mathlib

/-
  Shallow embedding of the core of src/backend_app.py (Face_Attendance_WEB_APP):
  the identity registry and training pipeline (train_model, lines 67-140),
  the load-time label counter (load_or_train_model, lines 52-54),
  the scan endpoint's per-face decision rule (scan_image_endpoint, lines 246-271),
  and the attendance ledger with its dedup map (log_attendance, lines 142-168).

  Conventions of the embedding:
  - Python dicts are insertion-ordered association lists; insertion with an
    existing key replaces the value in place (CPython 3.7+ semantics).
  - OpenCV / numpy calls (imread, detectMultiScale, resize, predict) are opaque:
    images, detected boxes and normalized crops are abstract data carried by the
    corpus/query description, and the LBPH predictor is an arbitrary function
    parameter.  Confidences are rationals; clock instants are integer seconds.
  - Python single-character str.split / str.replace / str.title are embedded
    as the character-list functions splitChar / replaceDashSpace / pyTitle.
  - Fallible file I/O is an explicit Boolean parameter saying whether the
    write succeeds (the corresponding try/except branch).
-/

namespace FaceApp

/-! ### Python string helpers -/

/-- Embedding of Python `s.split(sep)` for a one-character separator, on the
character list: always returns at least one (possibly empty) segment. -/
def splitChar (sep : Char) : List Char → List (List Char)
  | [] => [[]]
  | c :: cs =>
    if c = sep then [] :: splitChar sep cs
    else
      match splitChar sep cs with
      | [] => [[c]]
      | g :: gs => (c :: g) :: gs

/-- Join character segments with a one-character separator (inverse direction
of splitChar, used to state what rejoining segments yields). -/
def joinChar (sep : Char) : List (List Char) → List Char
  | [] => []
  | [g] => g
  | g :: gs => g ++ sep :: joinChar sep gs

/-- Python `tag.split(sep)` at the String level. -/
def pySplit (s : String) (sep : Char) : List String :=
  (splitChar sep s.data).map String.mk

/-- Embedding of Python `s.replace('-', ' ')` (single-character replacement is
a character-wise map). -/
def replaceDashSpace (s : String) : String :=
  String.mk (s.data.map (fun c => if c = '-' then ' ' else c))

/-- Worker for Python `str.title`: a letter is uppercased when the previous
character is not a letter, lowercased otherwise. -/
def pyTitleGo : Bool → List Char → List Char
  | _, [] => []
  | prevAlpha, c :: cs =>
    if c.isAlpha then
      (if prevAlpha then c.toLower else c.toUpper) :: pyTitleGo true cs
    else
      c :: pyTitleGo false cs

/-- Embedding of Python `s.title()`. -/
def pyTitle (s : String) : String :=
  String.mk (pyTitleGo false s.data)

/-! ### Identity registry (labels_map) -/

/-- An identity as stored in labels_map: `{'name': ..., 'roll_no': ...}`. -/
structure Identity where
  name : String
  roll_no : String
deriving DecidableEq

/-- Embedding of backend_app.py lines 89-91: parse a training directory name.
`parts = dir_name.split('_')`; `name = parts[0].replace('-',' ').title()`;
`roll_no = parts[1] if len(parts) > 1 else ""`. -/
def parseTag (tag : String) : Identity :=
  let parts := pySplit tag '_'
  { name := pyTitle (replaceDashSpace (parts.headD ""))
    roll_no := (parts.get? 1).getD "" }

/-- labels_map: insertion-ordered Python dict {label_id : identity}. -/
abbrev LabelsMap := List (Nat × Identity)

/-- Python `m[k]` / `k in m`: first (unique) binding of key k. -/
def lookupDict (m : LabelsMap) (k : Nat) : Option Identity :=
  match m with
  | [] => none
  | p :: rest => if p.1 = k then some p.2 else lookupDict rest k

/-- Python `m[k] = v`: replace in place when the key exists, else append. -/
def dictInsert (m : LabelsMap) (k : Nat) (v : Identity) : LabelsMap :=
  match m with
  | [] => [(k, v)]
  | p :: rest => if p.1 = k then (k, v) :: rest else p :: dictInsert rest k v

/-- Embedding of backend_app.py lines 93-97: linear scan of labels_map for an
entry whose name and roll_no both match, returning the first such label. -/
def findLabel (m : LabelsMap) (ident : Identity) : Option Nat :=
  match m with
  | [] => none
  | p :: rest => if p.2 = ident then some p.1 else findLabel rest ident

/-- Result of resolving one group's identity against labels_map. -/
structure Resolved where
  label : Nat
  m : LabelsMap
  cid : Nat
deriving DecidableEq

/-- Embedding of backend_app.py lines 93-104: reuse the found label, else
assign current_id, insert the new entry and advance current_id. -/
def resolveLabel (m : LabelsMap) (cid : Nat) (ident : Identity) : Resolved :=
  match findLabel m ident with
  | some l => ⟨l, m, cid⟩
  | none => ⟨cid, dictInsert m cid ident, cid + 1⟩

/-- Largest key of labels_map (0 when empty): `max(labels_map.keys())`. -/
def maxKey (m : LabelsMap) : Nat :=
  m.foldr (fun p acc => max p.1 acc) 0

/-- Embedding of backend_app.py line 54:
`max(labels_map.keys()) + 1 if labels_map else 0`. -/
def nextFresh (m : LabelsMap) : Nat :=
  if m.isEmpty then 0 else maxKey m + 1

/-! ### Training pipeline (train_model) -/

/-- A normalized 100x100 face crop, kept abstract. -/
abbrev Sample := Nat

/-- A detection bounding box (x, y, w, h) from detectMultiScale. -/
structure Box where
  x : Nat
  y : Nat
  w : Nat
  h : Nat
deriving DecidableEq

/-- What cv2.imread plus detectMultiScale yield for one training file:
either the image is unreadable (imread returned None), or it is readable with
a list of detected boxes and the crop that resizing the first box would give. -/
inductive ImgScan where
  | unreadable : ImgScan
  | readable : List Box → Sample → ImgScan
deriving DecidableEq

/-- One file inside a training group directory. -/
structure TrainFile where
  fileName : String
  img : ImgScan
deriving DecidableEq

/-- One training group: a subdirectory of KNOWN_FACES_TRAINING_DIR, in the
(sorted) order the os.walk loop of lines 86-88 visits it. -/
structure TrainGroup where
  dir_name : String
  files : List TrainFile
deriving DecidableEq

/-- Embedding of Python `s.lower()` (character-wise). -/
def pyLower (s : String) : String :=
  String.mk (s.data.map Char.toLower)

/-- Embedding of Python `s.endswith(t)`. -/
def pyEndsWith (s t : String) : Bool :=
  List.isSuffixOf t.data s.data

/-- Embedding of backend_app.py line 110: the file-extension filter
`file_name.lower().endswith(('.png', '.jpg', '.jpeg', '.gif'))`. -/
def hasImageExt (s : String) : Bool :=
  pyEndsWith (pyLower s) ".png" || pyEndsWith (pyLower s) ".jpg" ||
    pyEndsWith (pyLower s) ".jpeg" || pyEndsWith (pyLower s) ".gif"

/-- Embedding of backend_app.py lines 110-124 for one file: the (crop, label)
pair it contributes, or none when it is filtered out or skipped. -/
def fileSample (label : Nat) (f : TrainFile) : Option (Sample × Nat) :=
  if hasImageExt f.fileName then
    match f.img with
    | .unreadable => none
    | .readable faces crop => if faces.length = 1 then some (crop, label) else none
  else none

/-- Whether lines 121-124 record a warning for this file (readable image with
a face count other than 1, or unreadable image). -/
def fileWarned (f : TrainFile) : Bool :=
  hasImageExt f.fileName &&
    (match f.img with
     | .unreadable => true
     | .readable faces _ => faces.length != 1)

/-- State accumulated by the corpus walk of lines 86-124. -/
structure ScanRes where
  m : LabelsMap
  cid : Nat
  samples : List (Sample × Nat)
  warned : List String
deriving DecidableEq

/-- Embedding of the corpus walk (backend_app.py lines 86-124): resolve each
group's label, collect (crop, label) pairs of readable one-face images with an
accepted extension, and record warnings for skipped files. -/
def scanGroups (m : LabelsMap) (cid : Nat) : List TrainGroup → ScanRes
  | [] => ⟨m, cid, [], []⟩
  | g :: gs =>
    let r := resolveLabel m cid (parseTag g.dir_name)
    let rest := scanGroups r.m r.cid gs
    ⟨rest.m, rest.cid,
     g.files.filterMap (fileSample r.label) ++ rest.samples,
     (g.files.filter fileWarned).map (fun f => f.fileName) ++ rest.warned⟩

/-- The process/file state train_model reads and writes: the in-memory
labels_map and next_label_id globals, and the two persisted files
(LBPH_MODEL_FILE as its trained set, LABELS_MAP_FILE as a labels map). -/
structure SysState where
  labels_map : LabelsMap
  next_label_id : Nat
  modelFile : Option (List (Sample × Nat))
  labelsFile : Option LabelsMap
deriving DecidableEq

/-- Embedding of backend_app.py lines 52-54 (load_or_train_model, success
path): install the loaded labels map and set next_label_id to
`max(keys) + 1 if labels_map else 0`. -/
def loadState (saved : LabelsMap) (st : SysState) : SysState :=
  { st with labels_map := saved, next_label_id := nextFresh saved }

/-- Embedding of backend_app.py lines 67-140 (train_model).  dirOk models the
existence check of line 78, detOk the detector check of line 82, and persistOk
whether the try-block of lines 131-137 (train + write model + save labels)
succeeds; its failure is modeled as happening before any file is written.
Note that the corpus walk mutates the global labels_map before the
`if not images` check of line 126, so a failed call still keeps the walked
labels_map in memory while next_label_id (line 135) and both files stay put. -/
def trainModel (dirOk detOk persistOk : Bool) (corpus : List TrainGroup)
    (st : SysState) : SysState × Bool :=
  if dirOk = false then (st, false)
  else if detOk = false then (st, false)
  else
    let r := scanGroups st.labels_map st.next_label_id corpus
    if r.samples.isEmpty then ({ st with labels_map := r.m }, false)
    else if persistOk then
      ({ labels_map := r.m, next_label_id := r.cid,
         modelFile := some r.samples, labelsFile := some r.m }, true)
    else ({ st with labels_map := r.m }, false)

/-! ### Scan endpoint decision rule (scan_image_endpoint) -/

/-- Embedding of backend_app.py line 260: `recognition_threshold = 80`. -/
def recognition_threshold : ℚ := 80

/-- Python `int()` on a rational value: truncation toward zero. -/
def pyInt (q : ℚ) : Int :=
  if q < 0 then -((-q).floor) else q.floor

/-- The information the per-face result strings of lines 267 and 269 carry:
name and roll number when recognized, the truncated confidence otherwise. -/
inductive FaceResult where
  | recognized : String → String → FaceResult
  | unknown : Int → FaceResult
deriving DecidableEq

/-- Outcome of the modeled part of scan_image_endpoint (lines 246-275). -/
inductive ScanResp where
  | scanError : ScanResp
  | noFace : ScanResp
  | results : List FaceResult → ScanResp
deriving DecidableEq

/-- numpy `.any()` on one detection box row: some coordinate is nonzero. -/
def boxNonzero (b : Box) : Bool :=
  b.x != 0 || b.y != 0 || b.w != 0 || b.h != 0

/-- Embedding of backend_app.py lines 253-269 for one detected box: crop and
resize the face region, ask the recognizer for (label, confidence), and report
Recognized exactly when `confidence < recognition_threshold` and the label is
a key of labels_map, else Unknown with the truncated confidence. -/
def classifyFace (m : LabelsMap) (predict : Sample → Nat × ℚ)
    (crop : Box → Sample) (b : Box) : FaceResult :=
  let p := predict (crop b)
  if p.2 < recognition_threshold then
    match lookupDict m p.1 with
    | some ident => .recognized ident.name ident.roll_no
    | none => .unknown (pyInt p.2)
  else .unknown (pyInt p.2)

/-- Embedding of backend_app.py lines 247-271 after a successful decode:
`faces` is what detectMultiScale returned.  The OpenCV Python binding returns
the empty tuple when there are no detections, so `faces.any()` on line 249
raises AttributeError, which the `except` of lines 273-275 turns into a 500
error response (scanError).  On a nonempty ndarray, `not faces.any()` is true
only when every box is all zeros, giving the no-face message; otherwise every
detected box is classified independently and all results are returned. -/
def scanImageFaces (m : LabelsMap) (predict : Sample → Nat × ℚ)
    (crop : Box → Sample) (faces : List Box) : ScanResp :=
  match faces with
  | [] => .scanError
  | _ :: _ =>
    if faces.any boxNonzero then .results (faces.map (classifyFace m predict crop))
    else .noFace

/-! ### Attendance ledger (log_attendance) -/

/-- A wall-clock instant: the formatted date and time strings the code derives
from `datetime.now()`, plus the instant itself as a count of elapsed seconds
(an integer; only differences and order comparisons of instants are used). -/
structure PyTime where
  date : String
  hms : String
  secs : Int
deriving DecidableEq

/-- Embedding of backend_app.py line 29: `min_log_interval_seconds = 10`. -/
def min_log_interval_seconds : Int := 10

/-- One CSV row of ATTENDANCE_LOG_FILE: Date,Time,Name,Roll_Number. -/
structure AttRecord where
  date : String
  hms : String
  name : String
  roll_no : String
deriving DecidableEq

/-- attendance_logged_today: insertion-ordered dict from the string key to the
datetime (seconds) of the last accepted record. -/
abbrev DedupMap := List (String × Int)

/-- First binding of a key in the dedup map (Python dict lookup). -/
def lookupStr (d : DedupMap) (k : String) : Option Int :=
  match d with
  | [] => none
  | p :: rest => if p.1 = k then some p.2 else lookupStr rest k

/-- Python `d[k] = v` on the dedup map. -/
def insertStr (d : DedupMap) (k : String) (v : Int) : DedupMap :=
  match d with
  | [] => [(k, v)]
  | p :: rest => if p.1 = k then (k, v) :: rest else p :: insertStr rest k v

/-- Embedding of backend_app.py line 148: `f"{name}_{roll_no}_{today_date}"`. -/
def dedupKey (name roll_no date : String) : String :=
  name ++ "_" ++ roll_no ++ "_" ++ date

/-- The ledger state log_attendance touches: the in-memory dedup map and the
attendance CSV (none = file absent; the header row is left implicit). -/
structure LedgerState where
  dedup : DedupMap
  logFile : Option (List AttRecord)
deriving DecidableEq

/-- Embedding of backend_app.py lines 154-167 (the accept branch): when the
file writes succeed, append the record, stamp the dedup key with now, and
return True; when they raise, return False with the state as it was. -/
def tryAppend (writeOk : Bool) (now : PyTime) (name roll_no key : String)
    (st : LedgerState) : LedgerState × Bool :=
  if writeOk then
    ({ dedup := insertStr st.dedup key now.secs,
       logFile := some (st.logFile.getD [] ++ [⟨now.date, now.hms, name, roll_no⟩]) },
     true)
  else (st, false)

/-- Embedding of backend_app.py lines 142-168 (log_attendance): accept when no
dedup entry exists for the key or strictly more than min_log_interval_seconds
elapsed since the stored timestamp, else suppress with False. -/
def log_attendance (writeOk : Bool) (now : PyTime) (name roll_no : String)
    (st : LedgerState) : LedgerState × Bool :=
  let key := dedupKey name roll_no now.date
  match lookupStr st.dedup key with
  | none => tryAppend writeOk now name roll_no key st
  | some last =>
    if now.secs - last > min_log_interval_seconds then
      tryAppend writeOk now name roll_no key st
    else (st, false)

/-- The rows of the attendance CSV (empty when the file does not exist). -/
def ledgerRecords (st : LedgerState) : List AttRecord :=
  st.logFile.getD []

/-! ### Spec-side definitions for the tag parser claim -/

/-- Modelled from the spec claim wording: the external id is everything after
the first separator (all remaining segments rejoined with the separator). -/
def specExternalId (tag : String) : String :=
  match splitChar '_' tag.data with
  | _ :: b :: rest => String.mk (joinChar '_' (b :: rest))
  | _ => ""

/-- Modelled from the spec claim wording: the name is the segments (of the
part before the first separator) rejoined with spaces, and the external id is
everything after the first separator (empty when there is no separator). -/
def specClaimIdentity (tag : String) : Identity :=
  { name := String.mk (joinChar ' ' (splitChar '-' (((pySplit tag '_').headD "").data)))
    roll_no := specExternalId tag }

/-- The amended reading of the external id: the segment between the first and
second separator, empty when the tag has no separator. -/
def specSecondSegment (tag : String) : String :=
  match splitChar '_' tag.data with
  | _ :: e :: _ => String.mk e
  | _ => ""

/-- The amended reading of the name: hyphen-separated segments of the part
before the first separator, rejoined with spaces and then title-cased. -/
def specNameSegments (tag : String) : String :=
  pyTitle (String.mk (joinChar ' ' (splitChar '-' (((pySplit tag '_').headD "").data))))

/-! ### Helper lemmas: splitting and joining -/

theorem splitChar_ne_nil (sep : Char) (cs : List Char) : splitChar sep cs ≠ [] := by
  cases cs with
  | nil => simp [splitChar]
  | cons c cs =>
    unfold splitChar
    by_cases h : c = sep
    · simp [h]
    · simp only [if_neg h]
      cases splitChar sep cs <;> simp

theorem joinChar_splitChar (sep rep : Char) (cs : List Char) :
    joinChar rep (splitChar sep cs) = cs.map (fun c => if c = sep then rep else c) := by
  induction cs with
  | nil => simp [splitChar, joinChar]
  | cons c cs ih =>
    unfold splitChar
    by_cases h : c = sep
    · simp only [if_pos h]
      rcases hg : splitChar sep cs with _ | ⟨g, gs⟩
      · exact absurd hg (splitChar_ne_nil sep cs)
      · rw [hg] at ih
        simp [joinChar, ih, h]
    · simp only [if_neg h]
      rcases hg : splitChar sep cs with _ | ⟨g, gs⟩
      · exact absurd hg (splitChar_ne_nil sep cs)
      · rw [hg] at ih
        cases gs with
        | nil =>
          simp only [joinChar] at ih
          simp [joinChar, ih, h]
        | cons g2 gs2 =>
          simp only [joinChar] at ih ⊢
          simp [ih, h]

/-! ### Helper lemmas: the labels_map dictionary -/

theorem findLabel_dictInsert_self (m : LabelsMap) (k : Nat) (ident : Identity)
    (h : findLabel m ident = none) :
    findLabel (dictInsert m k ident) ident = some k := by
  induction m with
  | nil => simp [dictInsert, findLabel]
  | cons p rest ih =>
    simp only [findLabel] at h
    by_cases hp : p.2 = ident
    · simp [hp] at h
    · rw [if_neg hp] at h
      simp only [dictInsert]
      by_cases hk : p.1 = k
      · simp [hk, findLabel]
      · simp [hk, findLabel, hp, ih h]

theorem lookupDict_dictInsert_self (m : LabelsMap) (k : Nat) (v : Identity) :
    lookupDict (dictInsert m k v) k = some v := by
  induction m with
  | nil => simp [dictInsert, lookupDict]
  | cons p rest ih =>
    simp only [dictInsert]
    by_cases hk : p.1 = k
    · simp [hk, lookupDict]
    · simp [hk, lookupDict, ih]

theorem lookupDict_dictInsert_ne (m : LabelsMap) (k l : Nat) (v : Identity)
    (h : l ≠ k) : lookupDict (dictInsert m k v) l = lookupDict m l := by
  induction m with
  | nil =>
    simp only [dictInsert, lookupDict]
    rw [if_neg (fun hh => h hh.symm)]
  | cons p rest ih =>
    simp only [dictInsert]
    by_cases hk : p.1 = k
    · subst hk
      simp only [lookupDict]
      rw [if_neg (fun hh => h hh.symm), if_neg (fun hh => h hh.symm)]
    · simp only [if_neg hk, lookupDict]
      by_cases hl : p.1 = l
      · simp [hl]
      · simp [hl, ih]

theorem lookupDict_isSome_dictInsert (m : LabelsMap) (k l : Nat) (v : Identity)
    (h : (lookupDict m l).isSome = true) :
    (lookupDict (dictInsert m k v) l).isSome = true := by
  by_cases hlk : l = k
  · subst hlk
    rw [lookupDict_dictInsert_self]
    rfl
  · rw [lookupDict_dictInsert_ne m k l v hlk]
    exact h

theorem le_maxKey (m : LabelsMap) (p : Nat × Identity) (hp : p ∈ m) :
    p.1 ≤ maxKey m := by
  induction m with
  | nil => cases hp
  | cons q rest ih =>
    have hq : maxKey (q :: rest) = max q.1 (maxKey rest) := rfl
    rcases List.mem_cons.mp hp with h | h
    · subst h
      rw [hq]
      exact le_max_left _ _
    · rw [hq]
      exact le_trans (ih h) (le_max_right _ _)

theorem lt_nextFresh (m : LabelsMap) (p : Nat × Identity) (hp : p ∈ m) :
    p.1 < nextFresh m := by
  have he : m.isEmpty = false := by
    cases m
    · cases hp
    · rfl
  rw [nextFresh, he]
  simp only [Bool.false_eq_true, if_false]
  exact Nat.lt_succ_of_le (le_maxKey m p hp)

theorem lookupDict_none_of_lt (m : LabelsMap) (k : Nat)
    (h : ∀ p ∈ m, p.1 < k) : lookupDict m k = none := by
  induction m with
  | nil => rfl
  | cons q rest ih =>
    simp only [lookupDict]
    rw [if_neg (Nat.ne_of_lt (h q (List.mem_cons_self q rest)))]
    exact ih (fun p hp => h p (List.mem_cons_of_mem q hp))

theorem lookupDict_nextFresh (m : LabelsMap) : lookupDict m (nextFresh m) = none :=
  lookupDict_none_of_lt m (nextFresh m) (fun p hp => lt_nextFresh m p hp)

theorem lookupDict_eq_none_iff (m : LabelsMap) (k : Nat) :
    lookupDict m k = none ↔ ∀ p ∈ m, p.1 ≠ k := by
  induction m with
  | nil => simp [lookupDict]
  | cons q rest ih =>
    simp only [lookupDict]
    by_cases hq : q.1 = k
    · simp [hq]
    · simp [hq, ih]

theorem dictInsert_eq_append (m : LabelsMap) (k : Nat) (v : Identity)
    (h : lookupDict m k = none) : dictInsert m k v = m ++ [(k, v)] := by
  induction m with
  | nil => rfl
  | cons q rest ih =>
    simp only [lookupDict] at h
    by_cases hq : q.1 = k
    · simp [hq] at h
    · rw [if_neg hq] at h
      simp [dictInsert, hq, ih h]

theorem maxKey_append_single (m : LabelsMap) (k : Nat) (v : Identity) :
    maxKey (m ++ [(k, v)]) = max (maxKey m) k := by
  induction m with
  | nil => simp [maxKey]
  | cons q rest ih =>
    show max q.1 (maxKey (rest ++ [(k, v)])) = max (max q.1 (maxKey rest)) k
    rw [ih, Nat.max_assoc]

theorem nextFresh_eq (m : LabelsMap) (h : m ≠ []) : nextFresh m = maxKey m + 1 := by
  have he : m.isEmpty = false := by
    cases m
    · exact absurd rfl h
    · rfl
  simp [nextFresh, he]

theorem nextFresh_append (m : LabelsMap) (v : Identity) :
    nextFresh (m ++ [(nextFresh m, v)]) = nextFresh m + 1 := by
  rw [nextFresh_eq (m ++ [(nextFresh m, v)]) (by simp), maxKey_append_single]
  cases m with
  | nil => simp [nextFresh, maxKey]
  | cons q rest =>
    rw [nextFresh_eq (q :: rest) (by simp)]
    rw [Nat.max_eq_right (Nat.le_succ _)]

theorem findLabel_isSome_lookup (m : LabelsMap) (ident : Identity) (l : Nat)
    (h : findLabel m ident = some l) : (lookupDict m l).isSome = true := by
  induction m with
  | nil => cases h
  | cons q rest ih =>
    simp only [findLabel] at h
    by_cases hq : q.2 = ident
    · rw [if_pos hq] at h
      injection h with h
      subst h
      simp [lookupDict]
    · rw [if_neg hq] at h
      simp only [lookupDict]
      by_cases hql : q.1 = l
      · simp [hql]
      · simp [hql, ih h]

/-! ### Helper lemmas: resolveLabel -/

theorem resolveLabel_cid_le (m : LabelsMap) (cid : Nat) (ident : Identity) :
    cid ≤ (resolveLabel m cid ident).cid := by
  cases hf : findLabel m ident with
  | some l => simp [resolveLabel, hf]
  | none => simp [resolveLabel, hf, Nat.le_succ]

theorem resolveLabel_keys_mono (m : LabelsMap) (cid : Nat) (ident : Identity)
    (l : Nat) (h : (lookupDict m l).isSome = true) :
    (lookupDict (resolveLabel m cid ident).m l).isSome = true := by
  cases hf : findLabel m ident with
  | some l2 =>
    simp only [resolveLabel, hf]
    exact h
  | none =>
    simp only [resolveLabel, hf]
    exact lookupDict_isSome_dictInsert m cid l ident h

theorem resolveLabel_label_isSome (m : LabelsMap) (cid : Nat) (ident : Identity) :
    (lookupDict (resolveLabel m cid ident).m (resolveLabel m cid ident).label).isSome
      = true := by
  cases hf : findLabel m ident with
  | some l =>
    simp only [resolveLabel, hf]
    exact findLabel_isSome_lookup m ident l hf
  | none =>
    simp only [resolveLabel, hf]
    rw [lookupDict_dictInsert_self]
    rfl

theorem resolveLabel_preserves (m : LabelsMap) (cid : Nat) (ident : Identity)
    (hc : cid = nextFresh m) (l : Nat) (i : Identity)
    (h : lookupDict m l = some i) :
    lookupDict (resolveLabel m cid ident).m l = some i := by
  cases hf : findLabel m ident with
  | some l2 =>
    simp only [resolveLabel, hf]
    exact h
  | none =>
    simp only [resolveLabel, hf]
    have hl : l ≠ cid := by
      intro he
      subst he
      subst hc
      rw [lookupDict_nextFresh] at h
      cases h
    rw [lookupDict_dictInsert_ne m cid l ident hl]
    exact h

theorem resolveLabel_nextFresh (m : LabelsMap) (cid : Nat) (ident : Identity)
    (hc : cid = nextFresh m) :
    (resolveLabel m cid ident).cid = nextFresh (resolveLabel m cid ident).m := by
  cases hf : findLabel m ident with
  | some l =>
    simp only [resolveLabel, hf]
    exact hc
  | none =>
    simp only [resolveLabel, hf]
    subst hc
    rw [dictInsert_eq_append m (nextFresh m) ident (lookupDict_nextFresh m)]
    rw [nextFresh_append]

theorem resolveLabel_new_keys (m : LabelsMap) (cid : Nat) (ident : Identity)
    (l : Nat) (i : Identity)
    (h : lookupDict (resolveLabel m cid ident).m l = some i) :
    lookupDict m l = some i ∨ cid ≤ l := by
  cases hf : findLabel m ident with
  | some l2 =>
    simp only [resolveLabel, hf] at h
    exact Or.inl h
  | none =>
    simp only [resolveLabel, hf] at h
    by_cases hl : l = cid
    · exact Or.inr (le_of_eq hl.symm)
    · rw [lookupDict_dictInsert_ne m cid l ident hl] at h
      exact Or.inl h

/-! ### Helper lemmas: scanGroups -/

theorem scanGroups_keys_mono (gs : List TrainGroup) :
    ∀ m cid l, (lookupDict m l).isSome = true →
      (lookupDict (scanGroups m cid gs).m l).isSome = true := by
  induction gs with
  | nil => exact fun m cid l h => h
  | cons g gs ih =>
    intro m cid l h
    simp only [scanGroups]
    exact ih _ _ l (resolveLabel_keys_mono m cid (parseTag g.dir_name) l h)

theorem scanGroups_preserves (gs : List TrainGroup) :
    ∀ m cid, cid = nextFresh m → ∀ l i, lookupDict m l = some i →
      lookupDict (scanGroups m cid gs).m l = some i := by
  induction gs with
  | nil => exact fun m cid _ l i h => h
  | cons g gs ih =>
    intro m cid hc l i h
    simp only [scanGroups]
    exact ih _ _ (resolveLabel_nextFresh m cid _ hc) l i
      (resolveLabel_preserves m cid _ hc l i h)

theorem scanGroups_nextFresh (gs : List TrainGroup) :
    ∀ m cid, cid = nextFresh m →
      (scanGroups m cid gs).cid = nextFresh (scanGroups m cid gs).m := by
  induction gs with
  | nil => exact fun m cid hc => hc
  | cons g gs ih =>
    intro m cid hc
    simp only [scanGroups]
    exact ih _ _ (resolveLabel_nextFresh m cid _ hc)

theorem scanGroups_cid_le (gs : List TrainGroup) :
    ∀ m cid, cid ≤ (scanGroups m cid gs).cid := by
  induction gs with
  | nil => exact fun m cid => le_refl cid
  | cons g gs ih =>
    intro m cid
    simp only [scanGroups]
    exact le_trans (resolveLabel_cid_le m cid _) (ih _ _)

theorem scanGroups_new_keys (gs : List TrainGroup) :
    ∀ m cid, cid = nextFresh m → ∀ l i,
      lookupDict (scanGroups m cid gs).m l = some i →
      lookupDict m l = some i ∨ cid ≤ l := by
  induction gs with
  | nil => exact fun m cid _ l i h => Or.inl h
  | cons g gs ih =>
    intro m cid hc l i h
    simp only [scanGroups] at h
    rcases ih _ _ (resolveLabel_nextFresh m cid _ hc) l i h with h2 | h2
    · rcases resolveLabel_new_keys m cid _ l i h2 with h3 | h3
      · exact Or.inl h3
      · exact Or.inr h3
    · exact Or.inr (le_trans (resolveLabel_cid_le m cid _) h2)

/-! ### Helper lemmas: per-file training contribution -/

theorem fileSample_some (label : Nat) (f : TrainFile) (sl : Sample × Nat)
    (h : fileSample label f = some sl) :
    hasImageExt f.fileName = true ∧
      ∃ faces, f.img = .readable faces sl.1 ∧ faces.length = 1 ∧ sl.2 = label := by
  rw [fileSample] at h
  by_cases he : hasImageExt f.fileName
  · rw [if_pos he] at h
    cases hi : f.img with
    | unreadable =>
      rw [hi] at h
      cases h
    | readable faces crop =>
      rw [hi] at h
      have h2 : (if faces.length = 1 then some (crop, label) else none) = some sl := h
      by_cases hl : faces.length = 1
      · rw [if_pos hl] at h2
        injection h2 with h2
        subst h2
        exact ⟨he, faces, rfl, hl, rfl⟩
      · rw [if_neg hl] at h2
        cases h2
  · rw [if_neg he] at h
    cases h

theorem fileSample_eq_some (label : Nat) (f : TrainFile) (faces : List Box)
    (crop : Sample) (he : hasImageExt f.fileName = true)
    (hi : f.img = .readable faces crop) (hl : faces.length = 1) :
    fileSample label f = some (crop, label) := by
  rw [fileSample, if_pos he, hi]
  simp [hl]

theorem fileSample_skip (label : Nat) (f : TrainFile) (faces : List Box)
    (crop : Sample) (hi : f.img = .readable faces crop) (hl : faces.length ≠ 1) :
    fileSample label f = none := by
  rw [fileSample]
  by_cases he : hasImageExt f.fileName
  · rw [if_pos he, hi]
    simp [hl]
  · rw [if_neg he]

theorem scanGroups_samples_mem (gs : List TrainGroup) :
    ∀ m cid sl, sl ∈ (scanGroups m cid gs).samples →
      ∃ g, g ∈ gs ∧ ∃ f, f ∈ g.files ∧ hasImageExt f.fileName = true ∧
        ∃ faces, f.img = .readable faces sl.1 ∧ faces.length = 1 := by
  induction gs with
  | nil =>
    intro m cid sl h
    simp [scanGroups] at h
  | cons g gs ih =>
    intro m cid sl h
    simp only [scanGroups] at h
    rcases List.mem_append.mp h with h | h
    · rcases List.mem_filterMap.mp h with ⟨f, hf, hfs⟩
      rcases fileSample_some _ f sl hfs with ⟨he, faces, hi, hl, _⟩
      exact ⟨g, List.mem_cons_self g gs, f, hf, he, faces, hi, hl⟩
    · rcases ih _ _ sl h with ⟨g2, hg2, rest⟩
      exact ⟨g2, List.mem_cons_of_mem g hg2, rest⟩

theorem scanGroups_samples_label (gs : List TrainGroup) :
    ∀ m cid sl, sl ∈ (scanGroups m cid gs).samples →
      (lookupDict (scanGroups m cid gs).m sl.2).isSome = true := by
  induction gs with
  | nil =>
    intro m cid sl h
    simp [scanGroups] at h
  | cons g gs ih =>
    intro m cid sl h
    simp only [scanGroups] at h ⊢
    rcases List.mem_append.mp h with h | h
    · rcases List.mem_filterMap.mp h with ⟨f, hf, hfs⟩
      rcases fileSample_some _ f sl hfs with ⟨_, _, _, _, hlab⟩
      rw [hlab]
      exact scanGroups_keys_mono gs _ _ _
        (resolveLabel_label_isSome m cid (parseTag g.dir_name))
    · exact ih _ _ sl h

theorem scanGroups_contrib (gs : List TrainGroup) :
    ∀ m cid g f faces crop, g ∈ gs → f ∈ g.files →
      hasImageExt f.fileName = true → f.img = .readable faces crop →
      faces.length = 1 →
      ∃ l, (crop, l) ∈ (scanGroups m cid gs).samples := by
  induction gs with
  | nil =>
    intro m cid g f faces crop hg
    cases hg
  | cons g0 gs ih =>
    intro m cid g f faces crop hg hf he hi hl
    simp only [scanGroups]
    rcases List.mem_cons.mp hg with rfl | hg
    · refine ⟨(resolveLabel m cid (parseTag g.dir_name)).label, ?_⟩
      exact List.mem_append.mpr (Or.inl (List.mem_filterMap.mpr
        ⟨f, hf, fileSample_eq_some _ f faces crop he hi hl⟩))
    · rcases ih (resolveLabel m cid (parseTag g0.dir_name)).m
        (resolveLabel m cid (parseTag g0.dir_name)).cid g f faces crop hg hf he hi hl
        with ⟨l, hmem⟩
      exact ⟨l, List.mem_append.mpr (Or.inr hmem)⟩

theorem scanGroups_warned (gs : List TrainGroup) :
    ∀ m cid g f, g ∈ gs → f ∈ g.files → fileWarned f = true →
      f.fileName ∈ (scanGroups m cid gs).warned := by
  induction gs with
  | nil =>
    intro m cid g f hg
    cases hg
  | cons g0 gs ih =>
    intro m cid g f hg hf hw
    simp only [scanGroups]
    rcases List.mem_cons.mp hg with rfl | hg
    · exact List.mem_append.mpr (Or.inl (List.mem_map.mpr
        ⟨f, List.mem_filter.mpr ⟨hf, hw⟩, rfl⟩))
    · exact List.mem_append.mpr (Or.inr (ih _ _ g f hg hf hw))

/-! ### Helper lemmas: the dedup map -/

theorem lookupStr_insertStr_self (d : DedupMap) (k : String) (v : Int) :
    lookupStr (insertStr d k v) k = some v := by
  induction d with
  | nil => simp [insertStr, lookupStr]
  | cons p rest ih =>
    simp only [insertStr]
    by_cases hk : p.1 = k
    · simp [hk, lookupStr]
    · simp [hk, lookupStr, ih]

theorem log_attendance_accept (now : PyTime) (name roll_no : String) (st : LedgerState)
    (h : lookupStr st.dedup (dedupKey name roll_no now.date) = none ∨
      ∃ last, lookupStr st.dedup (dedupKey name roll_no now.date) = some last ∧
        now.secs - last > min_log_interval_seconds) :
    log_attendance true now name roll_no st =
      ({ dedup := insertStr st.dedup (dedupKey name roll_no now.date) now.secs,
         logFile := some (st.logFile.getD [] ++ [⟨now.date, now.hms, name, roll_no⟩]) },
       true) := by
  simp only [log_attendance]
  rcases h with h | ⟨last, hl, hgt⟩
  · simp only [h]
    rfl
  · simp only [hl]
    rw [if_pos hgt]
    rfl

theorem log_attendance_suppress (now : PyTime) (name roll_no : String)
    (st : LedgerState) (last : Int)
    (hl : lookupStr st.dedup (dedupKey name roll_no now.date) = some last)
    (hle : ¬ now.secs - last > min_log_interval_seconds) :
    log_attendance true now name roll_no st = (st, false) := by
  simp only [log_attendance, hl]
  rw [if_neg hle]

theorem log_attendance_true_cond (now : PyTime) (name roll_no : String)
    (st : LedgerState)
    (ht : (log_attendance true now name roll_no st).2 = true) :
    lookupStr st.dedup (dedupKey name roll_no now.date) = none ∨
      ∃ last, lookupStr st.dedup (dedupKey name roll_no now.date) = some last ∧
        now.secs - last > min_log_interval_seconds := by
  cases hcase : lookupStr st.dedup (dedupKey name roll_no now.date) with
  | none => exact Or.inl rfl
  | some last =>
    by_cases hgt : now.secs - last > min_log_interval_seconds
    · exact Or.inr ⟨last, rfl, hgt⟩
    · rw [log_attendance_suppress now name roll_no st last hcase hgt] at ht
      cases ht

/-! ### Helper lemma: per-face classification -/

theorem classifyFace_spec (m : LabelsMap) (predict : Sample → Nat × ℚ)
    (crop : Box → Sample) (b : Box) :
    (((predict (crop b)).2 < recognition_threshold ∧
        (lookupDict m (predict (crop b)).1).isSome = true) →
      ∃ ident, lookupDict m (predict (crop b)).1 = some ident ∧
        classifyFace m predict crop b = .recognized ident.name ident.roll_no) ∧
    (¬((predict (crop b)).2 < recognition_threshold ∧
        (lookupDict m (predict (crop b)).1).isSome = true) →
      classifyFace m predict crop b = .unknown (pyInt (predict (crop b)).2)) ∧
    ((∃ n r, classifyFace m predict crop b = .recognized n r) ↔
      ((predict (crop b)).2 < recognition_threshold ∧
        (lookupDict m (predict (crop b)).1).isSome = true)) := by
  by_cases hlt : (predict (crop b)).2 < recognition_threshold
  · cases hlk : lookupDict m (predict (crop b)).1 with
    | some ident =>
      have hc : classifyFace m predict crop b =
          .recognized ident.name ident.roll_no := by
        simp only [classifyFace, hlk]
        rw [if_pos hlt]
      refine ⟨fun _ => ⟨ident, rfl, hc⟩, fun hn => absurd ⟨hlt, rfl⟩ hn, ?_⟩
      exact ⟨fun _ => ⟨hlt, rfl⟩, fun _ => ⟨ident.name, ident.roll_no, hc⟩⟩
    | none =>
      have hc : classifyFace m predict crop b =
          .unknown (pyInt (predict (crop b)).2) := by
        simp only [classifyFace, hlk]
        rw [if_pos hlt]
      refine ⟨?_, fun _ => hc, ?_⟩
      · rintro ⟨_, hs⟩
        simp at hs
      · constructor
        · rintro ⟨n, r, hr⟩
          rw [hc] at hr
          exact FaceResult.noConfusion hr
        · rintro ⟨_, hs⟩
          simp at hs
  · have hc : classifyFace m predict crop b =
        .unknown (pyInt (predict (crop b)).2) := by
      simp only [classifyFace]
      rw [if_neg hlt]
    refine ⟨fun hcontra => absurd hcontra.1 hlt, fun _ => hc, ?_⟩
    constructor
    · rintro ⟨n, r, hr⟩
      rw [hc] at hr
      exact FaceResult.noConfusion hr
    · rintro ⟨hlt2, _⟩
      exact absurd hlt2 hlt

/-! ### Claim theorems -/

/-- C2: every call to log_attendance appends a new attendance record and
stamps the dedup key with the current time exactly when no dedup entry exists
for the (name, roll_no, date) key or strictly more than the configured
10-second minimum interval elapsed since the stored timestamp; otherwise it
suppresses the event, leaving the state untouched and raising no error.
Consequently two calls within the interval append exactly one record and a
later call after the interval elapses appends a second one.  (The storage
append is assumed to succeed; the failing-write behaviour is the separate
log_attendance false case.) -/
theorem attendance_dedup_rule :
    (∀ (st : LedgerState) (now : PyTime) (name roll_no : String),
      ((log_attendance true now name roll_no st).2 = true ↔
        (lookupStr st.dedup (dedupKey name roll_no now.date) = none ∨
         ∃ last, lookupStr st.dedup (dedupKey name roll_no now.date) = some last ∧
           now.secs - last > min_log_interval_seconds)) ∧
      ((log_attendance true now name roll_no st).2 = true →
        ledgerRecords (log_attendance true now name roll_no st).1 =
          ledgerRecords st ++ [⟨now.date, now.hms, name, roll_no⟩] ∧
        lookupStr (log_attendance true now name roll_no st).1.dedup
          (dedupKey name roll_no now.date) = some now.secs) ∧
      ((log_attendance true now name roll_no st).2 = false →
        (log_attendance true now name roll_no st).1 = st)) ∧
    (∀ (st : LedgerState) (name roll_no d hms1 hms2 : String) (t1 t2 : Int),
      lookupStr st.dedup (dedupKey name roll_no d) = none →
      t2 - t1 ≤ min_log_interval_seconds →
      ledgerRecords (log_attendance true ⟨d, hms2, t2⟩ name roll_no
          (log_attendance true ⟨d, hms1, t1⟩ name roll_no st).1).1 =
        ledgerRecords st ++ [⟨d, hms1, name, roll_no⟩] ∧
      (log_attendance true ⟨d, hms2, t2⟩ name roll_no
          (log_attendance true ⟨d, hms1, t1⟩ name roll_no st).1).2 = false) ∧
    (∀ (st : LedgerState) (name roll_no d hms1 hms2 hms3 : String) (t1 t2 t3 : Int),
      lookupStr st.dedup (dedupKey name roll_no d) = none →
      t2 - t1 ≤ min_log_interval_seconds →
      t3 - t1 > min_log_interval_seconds →
      ledgerRecords (log_attendance true ⟨d, hms3, t3⟩ name roll_no
          (log_attendance true ⟨d, hms2, t2⟩ name roll_no
            (log_attendance true ⟨d, hms1, t1⟩ name roll_no st).1).1).1 =
        ledgerRecords st ++ [⟨d, hms1, name, roll_no⟩, ⟨d, hms3, name, roll_no⟩] ∧
      (log_attendance true ⟨d, hms3, t3⟩ name roll_no
          (log_attendance true ⟨d, hms2, t2⟩ name roll_no
            (log_attendance true ⟨d, hms1, t1⟩ name roll_no st).1).1).2 = true) := by
  refine ⟨?_, ?_, ?_⟩
  · intro st now name roll_no
    refine ⟨⟨log_attendance_true_cond now name roll_no st, ?_⟩, ?_, ?_⟩
    · intro hcond
      rw [log_attendance_accept now name roll_no st hcond]
    · intro ht
      rw [log_attendance_accept now name roll_no st
        (log_attendance_true_cond now name roll_no st ht)]
      exact ⟨rfl, lookupStr_insertStr_self _ _ _⟩
    · intro hf
      cases hcase : lookupStr st.dedup (dedupKey name roll_no now.date) with
      | none =>
        rw [log_attendance_accept now name roll_no st (Or.inl hcase)] at hf
        cases hf
      | some last =>
        by_cases hgt : now.secs - last > min_log_interval_seconds
        · rw [log_attendance_accept now name roll_no st
            (Or.inr ⟨last, hcase, hgt⟩)] at hf
          cases hf
        · rw [log_attendance_suppress now name roll_no st last hcase hgt]
  · intro st name roll_no d hms1 hms2 t1 t2 h0 h12
    have h1 := log_attendance_accept ⟨d, hms1, t1⟩ name roll_no st (Or.inl h0)
    have e1 : (log_attendance true ⟨d, hms1, t1⟩ name roll_no st).1 =
        ({ dedup := insertStr st.dedup (dedupKey name roll_no d) t1,
           logFile := some (st.logFile.getD [] ++ [⟨d, hms1, name, roll_no⟩]) }
          : LedgerState) := by
      rw [h1]
    have hlk : lookupStr (insertStr st.dedup (dedupKey name roll_no d) t1)
        (dedupKey name roll_no d) = some t1 := lookupStr_insertStr_self _ _ _
    have h2 := log_attendance_suppress ⟨d, hms2, t2⟩ name roll_no
      ({ dedup := insertStr st.dedup (dedupKey name roll_no d) t1,
         logFile := some (st.logFile.getD [] ++ [⟨d, hms1, name, roll_no⟩]) }
        : LedgerState) t1 hlk (not_lt.mpr h12)
    rw [e1, h2]
    exact ⟨rfl, rfl⟩
  · intro st name roll_no d hms1 hms2 hms3 t1 t2 t3 h0 h12 h13
    have h1 := log_attendance_accept ⟨d, hms1, t1⟩ name roll_no st (Or.inl h0)
    have e1 : (log_attendance true ⟨d, hms1, t1⟩ name roll_no st).1 =
        ({ dedup := insertStr st.dedup (dedupKey name roll_no d) t1,
           logFile := some (st.logFile.getD [] ++ [⟨d, hms1, name, roll_no⟩]) }
          : LedgerState) := by
      rw [h1]
    have hlk : lookupStr (insertStr st.dedup (dedupKey name roll_no d) t1)
        (dedupKey name roll_no d) = some t1 := lookupStr_insertStr_self _ _ _
    have h2 := log_attendance_suppress ⟨d, hms2, t2⟩ name roll_no
      ({ dedup := insertStr st.dedup (dedupKey name roll_no d) t1,
         logFile := some (st.logFile.getD [] ++ [⟨d, hms1, name, roll_no⟩]) }
        : LedgerState) t1 hlk (not_lt.mpr h12)
    have e2 : (log_attendance true ⟨d, hms2, t2⟩ name roll_no
        ({ dedup := insertStr st.dedup (dedupKey name roll_no d) t1,
           logFile := some (st.logFile.getD [] ++ [⟨d, hms1, name, roll_no⟩]) }
          : LedgerState)).1 =
        ({ dedup := insertStr st.dedup (dedupKey name roll_no d) t1,
           logFile := some (st.logFile.getD [] ++ [⟨d, hms1, name, roll_no⟩]) }
          : LedgerState) := by
      rw [h2]
    have h3 := log_attendance_accept ⟨d, hms3, t3⟩ name roll_no
      ({ dedup := insertStr st.dedup (dedupKey name roll_no d) t1,
         logFile := some (st.logFile.getD [] ++ [⟨d, hms1, name, roll_no⟩]) }
        : LedgerState) (Or.inr ⟨t1, hlk, h13⟩)
    rw [e1, e2, h3]
    refine ⟨?_, rfl⟩
    show st.logFile.getD [] ++ [⟨d, hms1, name, roll_no⟩] ++ [⟨d, hms3, name, roll_no⟩]
      = st.logFile.getD [] ++ [⟨d, hms1, name, roll_no⟩, ⟨d, hms3, name, roll_no⟩]
    rw [List.append_assoc]
    rfl

/-- C2 witness: a concrete three-call run for the identity Ann/7 on one date,
with the second call 5 seconds after the first (suppressed) and the third 20
seconds after the first (accepted again). -/
theorem attendance_dedup_rule_witness :
    lookupStr (⟨[], none⟩ : LedgerState).dedup (dedupKey "Ann" "7" "2026-10-12") = none ∧
    (5 : Int) - 0 ≤ min_log_interval_seconds ∧
    (20 : Int) - 0 > min_log_interval_seconds ∧
    (ledgerRecords (log_attendance true ⟨"2026-10-12", "00:00:20", 20⟩ "Ann" "7"
        (log_attendance true ⟨"2026-10-12", "00:00:05", 5⟩ "Ann" "7"
          (log_attendance true ⟨"2026-10-12", "00:00:00", 0⟩ "Ann" "7"
            ⟨[], none⟩).1).1).1 =
      ledgerRecords (⟨[], none⟩ : LedgerState) ++
        [⟨"2026-10-12", "00:00:00", "Ann", "7"⟩, ⟨"2026-10-12", "00:00:20", "Ann", "7"⟩] ∧
    (log_attendance true ⟨"2026-10-12", "00:00:20", 20⟩ "Ann" "7"
        (log_attendance true ⟨"2026-10-12", "00:00:05", 5⟩ "Ann" "7"
          (log_attendance true ⟨"2026-10-12", "00:00:00", 0⟩ "Ann" "7"
            ⟨[], none⟩).1).1).2 = true) :=
  ⟨rfl, by decide, by decide,
   attendance_dedup_rule.2.2 ⟨[], none⟩ "Ann" "7" "2026-10-12"
     "00:00:00" "00:00:05" "00:00:20" 0 5 20 rfl (by decide) (by decide)⟩

/-- C10: when the file append fails, log_attendance returns False and leaves
the in-memory dedup map unchanged (the timestamp is stamped only after a
successful write), so a later recognition of the same identity on the same day
attempts the write again instead of being suppressed. -/
theorem failed_write_keeps_dedup :
    (∀ (now : PyTime) (name roll_no : String) (st : LedgerState),
      (log_attendance false now name roll_no st).2 = false ∧
      (log_attendance false now name roll_no st).1.dedup = st.dedup) ∧
    (∀ (st : LedgerState) (name roll_no d hms1 hms2 : String) (t1 t2 : Int),
      lookupStr st.dedup (dedupKey name roll_no d) = none →
      (log_attendance true ⟨d, hms2, t2⟩ name roll_no
        (log_attendance false ⟨d, hms1, t1⟩ name roll_no st).1).2 = true) := by
  have hfail : ∀ (now : PyTime) (name roll_no : String) (st : LedgerState),
      log_attendance false now name roll_no st = (st, false) := by
    intro now name roll_no st
    simp only [log_attendance]
    cases hl : lookupStr st.dedup (dedupKey name roll_no now.date) with
    | none => rfl
    | some last =>
      show (if now.secs - last > min_log_interval_seconds then
          tryAppend false now name roll_no (dedupKey name roll_no now.date) st
        else (st, false)) = (st, false)
      by_cases hgt : now.secs - last > min_log_interval_seconds
      · rw [if_pos hgt]
        rfl
      · rw [if_neg hgt]
  constructor
  · intro now name roll_no st
    rw [hfail]
    exact ⟨rfl, rfl⟩
  · intro st name roll_no d hms1 hms2 t1 t2 h0
    have e1 : (log_attendance false ⟨d, hms1, t1⟩ name roll_no st).1 = st := by
      rw [hfail]
    rw [e1, log_attendance_accept ⟨d, hms2, t2⟩ name roll_no st (Or.inl h0)]

/-- C10 witness: a failed write for Bea/3 followed by a successful retry on
the same date. -/
theorem failed_write_keeps_dedup_witness :
    lookupStr (⟨[], none⟩ : LedgerState).dedup (dedupKey "Bea" "3" "2026-10-12") = none ∧
    (log_attendance true ⟨"2026-10-12", "09:00:02", 2⟩ "Bea" "3"
      (log_attendance false ⟨"2026-10-12", "09:00:00", 0⟩ "Bea" "3"
        ⟨[], none⟩).1).2 = true :=
  ⟨rfl, failed_write_keeps_dedup.2 ⟨[], none⟩ "Bea" "3" "2026-10-12"
    "09:00:00" "09:00:02" 0 2 rfl⟩

/-- C6 (code bug in the source): on a decodable image in which the detector
finds zero faces, detectMultiScale returns the empty tuple, line 249 evaluates
the tuple's nonexistent any() method, and the resulting AttributeError is
caught by the generic handler of lines 273-275, so the endpoint returns a 500
error response rather than the claimed normal no-face-detected outcome. -/
theorem scan_zero_faces_error (m : LabelsMap) (predict : Sample → Nat × ℚ)
    (crop : Box → Sample) :
    scanImageFaces m predict crop [] = .scanError ∧
      ScanResp.scanError ≠ ScanResp.noFace :=
  ⟨rfl, fun hcontra => ScanResp.noConfusion hcontra⟩

/-- C1: once the scan reaches the per-face loop, every detected face is
classified independently, all results are returned in order, and a face is
reported Recognized with the registry identity exactly when the predictor's
confidence is strictly below the threshold 80 and the predicted label is a key
of labels_map; in every other case it is reported Unknown with the truncated
confidence. -/
theorem scan_decision_rule (m : LabelsMap) (predict : Sample → Nat × ℚ)
    (crop : Box → Sample) (faces : List Box)
    (h : faces.any boxNonzero = true) :
    ∃ rs, scanImageFaces m predict crop faces = .results rs ∧
      rs.length = faces.length ∧
      (∀ i : Nat, rs[i]? = Option.map (classifyFace m predict crop) faces[i]?) ∧
      ∀ b ∈ faces,
        (((predict (crop b)).2 < recognition_threshold ∧
            (lookupDict m (predict (crop b)).1).isSome = true) →
          ∃ ident, lookupDict m (predict (crop b)).1 = some ident ∧
            classifyFace m predict crop b = .recognized ident.name ident.roll_no) ∧
        (¬((predict (crop b)).2 < recognition_threshold ∧
            (lookupDict m (predict (crop b)).1).isSome = true) →
          classifyFace m predict crop b = .unknown (pyInt (predict (crop b)).2)) ∧
        ((∃ n r, classifyFace m predict crop b = .recognized n r) ↔
          ((predict (crop b)).2 < recognition_threshold ∧
            (lookupDict m (predict (crop b)).1).isSome = true)) := by
  cases faces with
  | nil => cases h
  | cons f fs =>
    refine ⟨(f :: fs).map (classifyFace m predict crop), ?_, ?_, ?_, ?_⟩
    · simp only [scanImageFaces]
      rw [if_pos h]
    · exact List.length_map _ _
    · intro i
      exact List.getElem?_map _ _ _
    · intro b _
      exact classifyFace_spec m predict crop b

/-- C1 witness: one detected box, a predictor returning label 0 with
confidence 50, and a registry holding label 0 for Ann/7. -/
theorem scan_decision_rule_witness :
    (([⟨0, 0, 30, 30⟩] : List Box).any boxNonzero = true) ∧
    (∃ rs, scanImageFaces [(0, ⟨"Ann", "7"⟩)] (fun _ => (0, (50 : ℚ)))
        (fun _ => 0) [⟨0, 0, 30, 30⟩] = .results rs ∧
      rs.length = 1 ∧
      (∀ i : Nat, rs[i]? = Option.map
          (classifyFace [(0, ⟨"Ann", "7"⟩)] (fun _ => (0, (50 : ℚ))) (fun _ => 0))
          (([⟨0, 0, 30, 30⟩] : List Box)[i]?)) ∧
      ∀ b ∈ ([⟨0, 0, 30, 30⟩] : List Box),
        (((50 : ℚ) < recognition_threshold ∧
            (lookupDict [(0, ⟨"Ann", "7"⟩)] 0).isSome = true) →
          ∃ ident, lookupDict [(0, ⟨"Ann", "7"⟩)] 0 = some ident ∧
            classifyFace [(0, ⟨"Ann", "7"⟩)] (fun _ => (0, (50 : ℚ))) (fun _ => 0) b =
              .recognized ident.name ident.roll_no) ∧
        (¬((50 : ℚ) < recognition_threshold ∧
            (lookupDict [(0, ⟨"Ann", "7"⟩)] 0).isSome = true) →
          classifyFace [(0, ⟨"Ann", "7"⟩)] (fun _ => (0, (50 : ℚ))) (fun _ => 0) b =
            .unknown (pyInt 50)) ∧
        ((∃ n r, classifyFace [(0, ⟨"Ann", "7"⟩)] (fun _ => (0, (50 : ℚ)))
            (fun _ => 0) b = .recognized n r) ↔
          ((50 : ℚ) < recognition_threshold ∧
            (lookupDict [(0, ⟨"Ann", "7"⟩)] 0).isSome = true))) :=
  ⟨by decide, scan_decision_rule [(0, ⟨"Ann", "7"⟩)] (fun _ => (0, (50 : ℚ)))
    (fun _ => 0) [⟨0, 0, 30, 30⟩] (by decide)⟩

/-- C3 (amended): resolving the same (name, roll_no) pair a second time
returns the same label and the same registry state (idempotence, for every
registry state); an existing identity's label is reused; a new identity is
always assigned the running counter value, and that value is the next unused
label with a genuinely new entry inserted only under the freshness invariant
next_label_id = (max label) + 1, or 0 on an empty registry.  The original
claim's unconditional "allocates the next unused label and inserts a new
entry" fails in reachable stale-counter states - see the counterexample. -/
theorem resolve_or_create_idempotent (m : LabelsMap) (cid : Nat) (ident : Identity) :
    (resolveLabel (resolveLabel m cid ident).m (resolveLabel m cid ident).cid ident =
      resolveLabel m cid ident) ∧
    (∀ l, findLabel m ident = some l → resolveLabel m cid ident = ⟨l, m, cid⟩) ∧
    (findLabel m ident = none → (resolveLabel m cid ident).label = cid) ∧
    (findLabel m ident = none → cid = nextFresh m →
      (resolveLabel m cid ident).label = nextFresh m ∧
      lookupDict m (resolveLabel m cid ident).label = none ∧
      findLabel (resolveLabel m cid ident).m ident =
        some (resolveLabel m cid ident).label) := by
  refine ⟨?_, ?_, ?_, ?_⟩
  · cases hf : findLabel m ident with
    | some l => simp only [resolveLabel, hf]
    | none =>
      have h2 : findLabel (dictInsert m cid ident) ident = some cid :=
        findLabel_dictInsert_self m cid ident hf
      simp only [resolveLabel, hf, h2]
  · intro l hf
    simp only [resolveLabel, hf]
  · intro hf
    simp only [resolveLabel, hf]
  · intro hf hc
    have h2 := findLabel_dictInsert_self m cid ident hf
    simp only [resolveLabel, hf]
    subst hc
    exact ⟨rfl, lookupDict_nextFresh m, h2⟩

/-- C3 counterexample: the stale-counter registry state left by a failed
training call (labels_map = [(0, Alice)], next_label_id = 0) is reachable;
resolving the new identity Bob there assigns label 0, which is not unused (it
is Alice's label), and the insertion overwrites Alice's entry in place rather
than adding a new one - refuting the claim's unconditional "allocates the
next unused label and inserts a new entry". -/
theorem resolve_or_create_stale_counterexample :
    (trainModel true true true
        [⟨"Alice_1", [⟨"a.jpg", .readable [⟨0, 0, 30, 30⟩, ⟨40, 0, 30, 30⟩] 0⟩]⟩]
        ⟨[], 0, none, none⟩).1 =
      ⟨[(0, ⟨"Alice", "1"⟩)], 0, none, none⟩ ∧
    findLabel [(0, ⟨"Alice", "1"⟩)] ⟨"Bob", "2"⟩ = none ∧
    (resolveLabel [(0, ⟨"Alice", "1"⟩)] 0 ⟨"Bob", "2"⟩).label = 0 ∧
    lookupDict [(0, ⟨"Alice", "1"⟩)] 0 = some ⟨"Alice", "1"⟩ ∧
    (resolveLabel [(0, ⟨"Alice", "1"⟩)] 0 ⟨"Bob", "2"⟩).m = [(0, ⟨"Bob", "2"⟩)] :=
  ⟨by decide, by decide, by decide, by decide, by decide⟩

/-- C3 witness: resolving Ann/7 against a registry that already maps label 0
to Ann/7 reuses label 0 and changes nothing. -/
theorem resolve_or_create_idempotent_witness :
    findLabel [(0, ⟨"Ann", "7"⟩)] ⟨"Ann", "7"⟩ = some 0 ∧
    resolveLabel [(0, ⟨"Ann", "7"⟩)] 1 ⟨"Ann", "7"⟩ = ⟨0, [(0, ⟨"Ann", "7"⟩)], 1⟩ :=
  ⟨by decide,
   (resolve_or_create_idempotent [(0, ⟨"Ann", "7"⟩)] 1 ⟨"Ann", "7"⟩).2.1 0 (by decide)⟩

/-- C4 (amended): when the corpus walk yields zero usable samples, training
reports failure and leaves the persisted classifier file, the persisted
registry file and next_label_id unchanged; on an empty corpus the whole state
is unchanged.  The in-memory labels_map, however, is not always left
untouched (see the counterexample). -/
theorem train_no_usable_samples
    (corpus : List TrainGroup) (st : SysState) (pOk : Bool)
    (h : (scanGroups st.labels_map st.next_label_id corpus).samples = []) :
    (trainModel true true pOk corpus st).2 = false ∧
    (trainModel true true pOk corpus st).1.next_label_id = st.next_label_id ∧
    (trainModel true true pOk corpus st).1.modelFile = st.modelFile ∧
    (trainModel true true pOk corpus st).1.labelsFile = st.labelsFile ∧
    (corpus = [] → trainModel true true pOk corpus st = (st, false)) := by
  have hE : (scanGroups st.labels_map st.next_label_id corpus).samples.isEmpty
      = true := by
    rw [h]
    rfl
  have hT : trainModel true true pOk corpus st =
      ({ st with labels_map := (scanGroups st.labels_map st.next_label_id corpus).m },
       false) := by
    simp [trainModel, hE]
  rw [hT]
  refine ⟨rfl, rfl, rfl, rfl, ?_⟩
  intro hc
  subst hc
  rfl

/-- C4 counterexample: a failed training call on a corpus whose only image
shows two faces (zero usable samples) still inserts the new identity parsed
from the group tag into the in-memory labels_map, so the in-memory registry
is not left untouched. -/
theorem train_failed_mutates_labels_map :
    trainModel true true true
        [⟨"Alice_1", [⟨"a.jpg", .readable [⟨0, 0, 30, 30⟩, ⟨40, 0, 30, 30⟩] 0⟩]⟩]
        ⟨[], 0, none, none⟩ =
      (⟨[(0, ⟨"Alice", "1"⟩)], 0, none, none⟩, false) ∧
    ([(0, (⟨"Alice", "1"⟩ : Identity))] : LabelsMap) ≠ ([] : LabelsMap) :=
  ⟨by decide, by decide⟩

/-- C4 witness: the two-face corpus yields zero usable samples and the failure
conclusions hold there. -/
theorem train_no_usable_samples_witness :
    (scanGroups ([] : LabelsMap) 0
        [⟨"Alice_1", [⟨"a.jpg", .readable [⟨0, 0, 30, 30⟩, ⟨40, 0, 30, 30⟩] 0⟩]⟩]).samples
      = [] ∧
    ((trainModel true true true
        [⟨"Alice_1", [⟨"a.jpg", .readable [⟨0, 0, 30, 30⟩, ⟨40, 0, 30, 30⟩] 0⟩]⟩]
        ⟨[], 0, none, none⟩).2 = false ∧
     (trainModel true true true
        [⟨"Alice_1", [⟨"a.jpg", .readable [⟨0, 0, 30, 30⟩, ⟨40, 0, 30, 30⟩] 0⟩]⟩]
        ⟨[], 0, none, none⟩).1.next_label_id = 0 ∧
     (trainModel true true true
        [⟨"Alice_1", [⟨"a.jpg", .readable [⟨0, 0, 30, 30⟩, ⟨40, 0, 30, 30⟩] 0⟩]⟩]
        ⟨[], 0, none, none⟩).1.modelFile = none ∧
     (trainModel true true true
        [⟨"Alice_1", [⟨"a.jpg", .readable [⟨0, 0, 30, 30⟩, ⟨40, 0, 30, 30⟩] 0⟩]⟩]
        ⟨[], 0, none, none⟩).1.labelsFile = none ∧
     ([⟨"Alice_1", [⟨"a.jpg", .readable [⟨0, 0, 30, 30⟩, ⟨40, 0, 30, 30⟩] 0⟩]⟩]
          = ([] : List TrainGroup) →
        trainModel true true true
          [⟨"Alice_1", [⟨"a.jpg", .readable [⟨0, 0, 30, 30⟩, ⟨40, 0, 30, 30⟩] 0⟩]⟩]
          ⟨[], 0, none, none⟩ = (⟨[], 0, none, none⟩, false))) :=
  ⟨by decide,
   train_no_usable_samples
     [⟨"Alice_1", [⟨"a.jpg", .readable [⟨0, 0, 30, 30⟩, ⟨40, 0, 30, 30⟩] 0⟩]⟩]
     ⟨[], 0, none, none⟩ true (by decide)⟩

/-- C5: a readable training image with an accepted extension contributes a
(crop, label) pair exactly when the detector finds one face in it; every
sample of the trained set arises from such a one-face image; an image with
zero or several faces contributes nothing under any label, its name is
recorded in the warning list, and the corpus walk continues so that other
images still contribute. -/
theorem training_one_face_rule (m : LabelsMap) (cid : Nat) (gs : List TrainGroup) :
    (∀ (label : Nat) (f : TrainFile) (faces : List Box) (crop : Sample),
      hasImageExt f.fileName = true → f.img = .readable faces crop →
      (fileSample label f = some (crop, label) ↔ faces.length = 1)) ∧
    (∀ sl, sl ∈ (scanGroups m cid gs).samples →
      ∃ g, g ∈ gs ∧ ∃ f, f ∈ g.files ∧ hasImageExt f.fileName = true ∧
        ∃ faces, f.img = .readable faces sl.1 ∧ faces.length = 1) ∧
    (∀ g f faces crop, g ∈ gs → f ∈ g.files → hasImageExt f.fileName = true →
      f.img = .readable faces crop → faces.length = 1 →
      ∃ l, (crop, l) ∈ (scanGroups m cid gs).samples) ∧
    (∀ g f faces crop, g ∈ gs → f ∈ g.files → hasImageExt f.fileName = true →
      f.img = .readable faces crop → faces.length ≠ 1 →
      f.fileName ∈ (scanGroups m cid gs).warned ∧
        ∀ label, fileSample label f = none) := by
  refine ⟨?_, ?_, ?_, ?_⟩
  · intro label f faces crop he hi
    constructor
    · intro hs
      rcases fileSample_some label f (crop, label) hs with ⟨_, faces2, hi2, hl2, _⟩
      rw [hi] at hi2
      injection hi2 with e1 e2
      rw [e1]
      exact hl2
    · intro hl
      exact fileSample_eq_some label f faces crop he hi hl
  · exact scanGroups_samples_mem gs m cid
  · intro g f faces crop hg hf he hi hl
    exact scanGroups_contrib gs m cid g f faces crop hg hf he hi hl
  · intro g f faces crop hg hf he hi hl
    have hw : fileWarned f = true := by
      simp [fileWarned, he, hi, hl]
    refine ⟨scanGroups_warned gs m cid g f hg hf hw, ?_⟩
    intro label
    exact fileSample_skip label f faces crop hi hl

/-- C5 witness: a one-face image contributes its crop to the trained set. -/
theorem training_one_face_rule_witness :
    hasImageExt "b.jpg" = true ∧
    ([(⟨0, 0, 30, 30⟩ : Box)]).length = 1 ∧
    (∃ l, ((7 : Sample), l) ∈
      (scanGroups [] 0
        [⟨"Bob_2", [⟨"b.jpg", .readable [⟨0, 0, 30, 30⟩] 7⟩]⟩]).samples) :=
  ⟨by decide, by decide,
   (training_one_face_rule [] 0
       [⟨"Bob_2", [⟨"b.jpg", .readable [⟨0, 0, 30, 30⟩] 7⟩]⟩]).2.2.1
     ⟨"Bob_2", [⟨"b.jpg", .readable [⟨0, 0, 30, 30⟩] 7⟩]⟩
     ⟨"b.jpg", .readable [⟨0, 0, 30, 30⟩] 7⟩
     [⟨0, 0, 30, 30⟩] 7 (by decide) (by decide) (by decide) rfl rfl⟩

/-- C7 (amended): provided next_label_id is one past the largest registry
label (or 0 on an empty registry) — the invariant established by the model
loader and re-established by every successful training — a new identity is
allocated exactly that next fresh label, a corpus walk never rebinds an
existing label to a different identity, the invariant is preserved by the
walk, and every label the walk adds is at least the starting counter.  The
unconditional claim fails after a failed training call - see the
counterexample. -/
theorem label_allocation_fresh (m : LabelsMap) (cid : Nat) (ident : Identity)
    (gs : List TrainGroup) (hc : cid = nextFresh m) :
    (∀ (saved : LabelsMap) (st : SysState),
      (loadState saved st).next_label_id = nextFresh (loadState saved st).labels_map) ∧
    (findLabel m ident = none → (resolveLabel m cid ident).label = nextFresh m) ∧
    (∀ l i, lookupDict m l = some i → lookupDict (scanGroups m cid gs).m l = some i) ∧
    ((scanGroups m cid gs).cid = nextFresh (scanGroups m cid gs).m ∧
      cid ≤ (scanGroups m cid gs).cid) ∧
    (∀ l i, lookupDict (scanGroups m cid gs).m l = some i →
      lookupDict m l = some i ∨ cid ≤ l) := by
  refine ⟨fun saved st => rfl, ?_, ?_, ⟨?_, ?_⟩, ?_⟩
  · intro hf
    simp only [resolveLabel, hf]
    exact hc
  · exact scanGroups_preserves gs m cid hc
  · exact scanGroups_nextFresh gs m cid hc
  · exact scanGroups_cid_le gs m cid
  · exact scanGroups_new_keys gs m cid hc

/-- C7 counterexample: a failed training call (its only image skipped) inserts
Alice at label 0 without advancing next_label_id; the next training call then
rebinds label 0 to Bob, so within one registry lifetime an existing label is
reassigned to a different identity. -/
theorem label_reassigned_counterexample :
    (trainModel true true true
        [⟨"Alice_1", [⟨"a.jpg", .readable [⟨0, 0, 30, 30⟩, ⟨40, 0, 30, 30⟩] 0⟩]⟩]
        ⟨[], 0, none, none⟩).1.labels_map = [(0, ⟨"Alice", "1"⟩)] ∧
    (trainModel true true true
        [⟨"Bob_2", [⟨"b.jpg", .readable [⟨0, 0, 30, 30⟩] 7⟩]⟩]
        (trainModel true true true
          [⟨"Alice_1", [⟨"a.jpg", .readable [⟨0, 0, 30, 30⟩, ⟨40, 0, 30, 30⟩] 0⟩]⟩]
          ⟨[], 0, none, none⟩).1).1.labels_map = [(0, ⟨"Bob", "2"⟩)] ∧
    (⟨"Alice", "1"⟩ : Identity) ≠ ⟨"Bob", "2"⟩ :=
  ⟨by decide, by decide, by decide⟩

/-- C7 witness: the freshness invariant holds for the empty registry with
counter 0, and the allocation facts hold for a one-group corpus there. -/
theorem label_allocation_fresh_witness :
    (0 : Nat) = nextFresh ([] : LabelsMap) ∧
    ((∀ (saved : LabelsMap) (st : SysState),
      (loadState saved st).next_label_id = nextFresh (loadState saved st).labels_map) ∧
    (findLabel ([] : LabelsMap) ⟨"Ann", "7"⟩ = none →
      (resolveLabel [] 0 ⟨"Ann", "7"⟩).label = nextFresh ([] : LabelsMap)) ∧
    (∀ l i, lookupDict [] l = some i →
      lookupDict (scanGroups [] 0
        [⟨"Bob_2", [⟨"b.jpg", .readable [⟨0, 0, 30, 30⟩] 7⟩]⟩]).m l = some i) ∧
    ((scanGroups [] 0 [⟨"Bob_2", [⟨"b.jpg", .readable [⟨0, 0, 30, 30⟩] 7⟩]⟩]).cid =
        nextFresh (scanGroups [] 0
          [⟨"Bob_2", [⟨"b.jpg", .readable [⟨0, 0, 30, 30⟩] 7⟩]⟩]).m ∧
      0 ≤ (scanGroups [] 0
        [⟨"Bob_2", [⟨"b.jpg", .readable [⟨0, 0, 30, 30⟩] 7⟩]⟩]).cid) ∧
    (∀ l i, lookupDict (scanGroups [] 0
        [⟨"Bob_2", [⟨"b.jpg", .readable [⟨0, 0, 30, 30⟩] 7⟩]⟩]).m l = some i →
      lookupDict [] l = some i ∨ 0 ≤ l)) :=
  ⟨rfl, label_allocation_fresh [] 0 ⟨"Ann", "7"⟩
    [⟨"Bob_2", [⟨"b.jpg", .readable [⟨0, 0, 30, 30⟩] 7⟩]⟩] rfl⟩

/-- C8 (amended): after a successful training call, the trained set and the
registry are persisted together and every label occurring in the trained set
has an entry in the registry.  The converse direction of the original claim
(every registry label occurs in the trained set) is false - see the
counterexample. -/
theorem trained_set_labels_registered
    (corpus : List TrainGroup) (st : SysState) (pOk : Bool)
    (h : (trainModel true true pOk corpus st).2 = true) :
    ∃ samples,
      (trainModel true true pOk corpus st).1.modelFile = some samples ∧
      (trainModel true true pOk corpus st).1.labelsFile =
        some (trainModel true true pOk corpus st).1.labels_map ∧
      ∀ sl ∈ samples,
        (lookupDict (trainModel true true pOk corpus st).1.labels_map sl.2).isSome
          = true := by
  cases hE : (scanGroups st.labels_map st.next_label_id corpus).samples.isEmpty with
  | true =>
    exfalso
    have hh : trainModel true true pOk corpus st =
        ({ st with labels_map := (scanGroups st.labels_map st.next_label_id corpus).m },
         false) := by
      simp [trainModel, hE]
    rw [hh] at h
    cases h
  | false =>
    cases pOk with
    | false =>
      exfalso
      have hh : trainModel true true false corpus st =
          ({ st with
              labels_map := (scanGroups st.labels_map st.next_label_id corpus).m },
           false) := by
        simp [trainModel, hE]
      rw [hh] at h
      cases h
    | true =>
      have hh : trainModel true true true corpus st =
          ({ labels_map := (scanGroups st.labels_map st.next_label_id corpus).m,
             next_label_id := (scanGroups st.labels_map st.next_label_id corpus).cid,
             modelFile := some (scanGroups st.labels_map st.next_label_id corpus).samples,
             labelsFile := some (scanGroups st.labels_map st.next_label_id corpus).m },
           true) := by
        simp [trainModel, hE]
      rw [hh]
      refine ⟨(scanGroups st.labels_map st.next_label_id corpus).samples, rfl, rfl, ?_⟩
      intro sl hsl
      exact scanGroups_samples_label corpus st.labels_map st.next_label_id sl hsl

/-- C8 counterexample: training on Alice (only image skipped: two faces) and
Bob (one good image) succeeds, the registry then holds label 0 for Alice, yet
the persisted trained set contains only a sample labeled 1 - a registry label
absent from the classifier's trained set. -/
theorem registry_label_missing_from_trained_set :
    trainModel true true true
        [⟨"Alice_1", [⟨"a.jpg", .readable [⟨0, 0, 30, 30⟩, ⟨40, 0, 30, 30⟩] 0⟩]⟩,
         ⟨"Bob_2", [⟨"b.jpg", .readable [⟨0, 0, 30, 30⟩] 7⟩]⟩]
        ⟨[], 0, none, none⟩ =
      (⟨[(0, ⟨"Alice", "1"⟩), (1, ⟨"Bob", "2"⟩)], 2, some [(7, 1)],
        some [(0, ⟨"Alice", "1"⟩), (1, ⟨"Bob", "2"⟩)]⟩, true) ∧
    lookupDict [(0, ⟨"Alice", "1"⟩), (1, ⟨"Bob", "2"⟩)] 0 = some ⟨"Alice", "1"⟩ ∧
    ∀ sl ∈ ([((7 : Sample), 1)] : List (Sample × Nat)), sl.2 ≠ 0 :=
  ⟨by decide, by decide, by decide⟩

/-- C8 witness: a successful one-group training run satisfies the hypothesis
and the amended correspondence. -/
theorem trained_set_labels_registered_witness :
    (trainModel true true true
        [⟨"Bob_2", [⟨"b.jpg", .readable [⟨0, 0, 30, 30⟩] 7⟩]⟩]
        ⟨[], 0, none, none⟩).2 = true ∧
    (∃ samples,
      (trainModel true true true
          [⟨"Bob_2", [⟨"b.jpg", .readable [⟨0, 0, 30, 30⟩] 7⟩]⟩]
          ⟨[], 0, none, none⟩).1.modelFile = some samples ∧
      (trainModel true true true
          [⟨"Bob_2", [⟨"b.jpg", .readable [⟨0, 0, 30, 30⟩] 7⟩]⟩]
          ⟨[], 0, none, none⟩).1.labelsFile =
        some (trainModel true true true
          [⟨"Bob_2", [⟨"b.jpg", .readable [⟨0, 0, 30, 30⟩] 7⟩]⟩]
          ⟨[], 0, none, none⟩).1.labels_map ∧
      ∀ sl ∈ samples,
        (lookupDict (trainModel true true true
          [⟨"Bob_2", [⟨"b.jpg", .readable [⟨0, 0, 30, 30⟩] 7⟩]⟩]
          ⟨[], 0, none, none⟩).1.labels_map sl.2).isSome = true) :=
  ⟨by decide,
   trained_set_labels_registered
     [⟨"Bob_2", [⟨"b.jpg", .readable [⟨0, 0, 30, 30⟩] 7⟩]⟩]
     ⟨[], 0, none, none⟩ true (by decide)⟩

/-- C9 (amended): the parser takes the part before the first separator,
rejoins its hyphen-separated segments with spaces and title-cases the result
as the name, and takes the segment between the first and second separator
(not everything after the first separator) as the external id, defaulting to
the empty string when the tag has no separator. -/
theorem parse_tag_amended (tag : String) :
    (parseTag tag).name = specNameSegments tag ∧
    (parseTag tag).roll_no = specSecondSegment tag ∧
    ((splitChar '_' tag.data).length = 1 → (parseTag tag).roll_no = "") := by
  refine ⟨?_, ?_, ?_⟩
  · show pyTitle (replaceDashSpace ((pySplit tag '_').headD "")) = specNameSegments tag
    simp only [specNameSegments, replaceDashSpace, joinChar_splitChar]
  · show ((pySplit tag '_').get? 1).getD "" = specSecondSegment tag
    simp only [specSecondSegment, pySplit]
    cases hs : splitChar '_' tag.data with
    | nil => rfl
    | cons a rest =>
      cases rest with
      | nil => rfl
      | cons b rest2 => rfl
  · intro hlen
    show ((pySplit tag '_').get? 1).getD "" = ""
    simp only [pySplit]
    cases hs : splitChar '_' tag.data with
    | nil => rfl
    | cons a rest =>
      cases rest with
      | nil => rfl
      | cons b rest2 =>
        rw [hs] at hlen
        simp at hlen

/-- C9 counterexample: for the tag "ab-cd_e_f" the code's parser yields
external id "e" (the segment between the first and second separator), while
the claim's reading - everything after the first separator - yields "e_f". -/
theorem parse_tag_counterexample :
    parseTag "ab-cd_e_f" = ⟨"Ab Cd", "e"⟩ ∧
    specClaimIdentity "ab-cd_e_f" = ⟨"ab cd", "e_f"⟩ ∧
    parseTag "ab-cd_e_f" ≠ specClaimIdentity "ab-cd_e_f" :=
  ⟨by decide, by decide, by decide⟩

/-- C9 witness: the separator-free tag "Bob" has one segment and an empty
external id. -/
theorem parse_tag_amended_witness :
    (splitChar '_' ("Bob" : String).data).length = 1 ∧
    (parseTag "Bob").roll_no = "" :=
  ⟨by decide, (parse_tag_amended "Bob").2.2 (by decide)⟩

end FaceApp
